import Mathlib

/-!
# Verification of `linkcheck/htmlutil/linkparse.py`

A shallow embedding of the tag/attribute interpretation layer of the
linkchecker repository (file `src/linkcheck/htmlutil/linkparse.py`) together
with theorems settling the frozen claims about it.

Modelling conventions:
* A Python attribute value is `Option String`: `none` is Python `None`
  (an attribute present with an absent value), `some s` is the text `s`.
* An attribute mapping (`TagAttributes`) is an ordered association list with
  unique keys; `attrs.get(k)` and `attrs.get(k, default)` are `pyGet` and
  `pyGetD`.
* Python exceptions are values of `PyExc`; functions that can raise return
  either `Except PyExc _` or pair their output with an `Option PyExc`
  (the candidates emitted before the exception, plus the exception, because
  the sink callback observes candidates emitted before a raise).
* `str.lower` is modelled with `Char.toLower` (ASCII case mapping; every
  string appearing in the source comparisons is ASCII).
* Python `\d` / `\s` of the regular expressions are modelled with
  `Char.isDigit` / `Char.isWhitespace` (ASCII; all inputs of interest are
  ASCII).
-/

/-- A Python string-or-None value. -/
abbrev PyVal := Option String

/-- Ordered attribute mapping of a tag event (dict with unique keys). -/
abbrev TagAttributes := List (String × PyVal)

/-- Python exceptions raised by the embedded code. -/
inductive PyExc where
  | attributeError
  | typeError
  | indexError
  | assertionError
deriving DecidableEq

instance {ε α : Type} [DecidableEq ε] [DecidableEq α] : DecidableEq (Except ε α) := fun a b =>
  match a, b with
  | .ok x, .ok y =>
    match decEq x y with
    | isTrue h => isTrue (h ▸ rfl)
    | isFalse h => isFalse (fun hh => h (by cases hh; rfl))
  | .error x, .error y =>
    match decEq x y with
    | isTrue h => isTrue (h ▸ rfl)
    | isFalse h => isFalse (fun hh => h (by cases hh; rfl))
  | .ok _, .error _ => isFalse (fun h => Except.noConfusion h)
  | .error _, .ok _ => isFalse (fun h => Except.noConfusion h)

/-- Association-list lookup; first binding of the key wins (dict semantics,
keys are unique). -/
def pyLookup : TagAttributes → String → Option PyVal
  | [], _ => none
  | (k, v) :: rest, key => if k = key then some v else pyLookup rest key

/-- Python `attrs.get(key)`: `None` when the key is missing, the stored value
(possibly `None`) otherwise. -/
def pyGet (attrs : TagAttributes) (key : String) : PyVal :=
  match pyLookup attrs key with
  | none => none
  | some v => v

/-- Python `attrs.get(key, default)` with a string default: the default when
the key is missing, the stored value (possibly `None`) otherwise. -/
def pyGetD (attrs : TagAttributes) (key : String) (default : String) : PyVal :=
  match pyLookup attrs key with
  | none => some default
  | some v => v

/-- Python `key in attrs` for a dict. -/
def pyHasKey (attrs : TagAttributes) (key : String) : Bool :=
  (pyLookup attrs key).isSome

/-- Python truthiness of a string-or-None value: `None` and `''` are falsy. -/
def pyTruthy : PyVal → Bool
  | none => false
  | some s =>
    match s.data with
    | [] => false
    | _ :: _ => true

/-- Python `str.lower` (ASCII case mapping). -/
def lowerStr (s : String) : String :=
  ⟨s.data.map Char.toLower⟩

/-- Splits a character list at every separator character satisfying `p`,
keeping empty groups (the split used by Python `str.split(sep)`). -/
def splitGroups (p : Char → Bool) (l : List Char) : List (List Char) :=
  l.foldr
    (fun c acc =>
      match acc with
      | h :: t => if p c then [] :: h :: t else (c :: h) :: t
      | [] => [[c]])
    [[]]

/-- Python `s.split(sep)` for a one-character separator: keeps empty tokens,
`''.split(sep) == ['']`. -/
def pySplitChar (sep : Char) (s : String) : List String :=
  (splitGroups (fun c => c = sep) s.data).map (⟨·⟩)

/-- Python `s.split()` (no argument): maximal non-whitespace runs, empty
tokens discarded; an all-whitespace string gives `[]`. -/
def pySplitWs (s : String) : List String :=
  ((splitGroups Char.isWhitespace s.data).filter (fun g => ¬ g.isEmpty)).map (⟨·⟩)

/-- Python `s.rstrip('/')`: removes every trailing `'/'`. -/
def pyRstripSlash (s : String) : String :=
  ⟨(s.data.reverse.dropWhile (fun c => c = '/')).reverse⟩

/-- Python `s.split(':', 1)[1]`: the text after the first `':'` (only used
when `':' in s`). -/
def afterFirstColon (s : String) : String :=
  ⟨(s.data.dropWhile (fun c => ¬ c = ':')).tail⟩

/-- Python `c in s` for a character and a string. -/
def pyInStr (c : Char) (s : String) : Bool :=
  s.data.contains c

/-!
## Rule tables (source lines 29-78)

`LinkTags`, `AnchorTags` and `WmlTags` map a tag name (or the wildcard key
`none`, Python `None`) to the list of link-bearing attribute names.
-/

/-- HTML4/5 link tags (source `LinkTags`). -/
def LinkTags : List (Option String × List String) :=
  [ (some "a", ["href"]),
    (some "applet", ["archive", "src"]),
    (some "area", ["href"]),
    (some "audio", ["src"]),
    (some "bgsound", ["src"]),
    (some "blockquote", ["cite"]),
    (some "body", ["background"]),
    (some "button", ["formaction"]),
    (some "del", ["cite"]),
    (some "embed", ["pluginspage", "src"]),
    (some "form", ["action"]),
    (some "frame", ["src", "longdesc"]),
    (some "head", ["profile"]),
    (some "html", ["manifest"]),
    (some "iframe", ["src", "longdesc"]),
    (some "ilayer", ["background"]),
    (some "img", ["src", "lowsrc", "longdesc", "usemap", "srcset"]),
    (some "input", ["src", "usemap", "formaction"]),
    (some "ins", ["cite"]),
    (some "isindex", ["action"]),
    (some "layer", ["background", "src"]),
    (some "link", ["href"]),
    (some "meta", ["content", "href"]),
    (some "object", ["classid", "data", "archive", "usemap", "codebase"]),
    (some "q", ["cite"]),
    (some "script", ["src"]),
    (some "source", ["src"]),
    (some "table", ["background"]),
    (some "td", ["background"]),
    (some "th", ["background"]),
    (some "tr", ["background"]),
    (some "track", ["src"]),
    (some "video", ["src"]),
    (some "xmp", ["href"]),
    (none, ["style", "itemtype"]) ]

/-- HTML anchor tags (source `AnchorTags`). -/
def AnchorTags : List (Option String × List String) :=
  [ (some "a", ["name"]), (none, ["id"]) ]

/-- WML tags (source `WmlTags`). -/
def WmlTags : List (Option String × List String) :=
  [ (some "a", ["href"]), (some "go", ["href"]), (some "img", ["src"]) ]

/-- Lookup in a rule table (`tags.get(key)`). -/
def tblLookup : List (Option String × List String) → Option String → Option (List String)
  | [], _ => none
  | (k, v) :: rest, key => if k = key then some v else tblLookup rest key

/-!
## Tag events
-/

/-- One tag-open event as delivered to `start_element`. -/
structure TagEvent where
  tag : String
  attrs : TagAttributes
  elementText : String
  lineno : Nat
  column : Nat
deriving DecidableEq

/-!
## `MetaRobotsFinder` (source lines 113-130)
-/

/-- State of the robots-directive extractor: the `follow` and `index` flags,
both initially true. -/
structure MetaRobotsFinder where
  follow : Bool
  index : Bool
deriving DecidableEq

/-- Initial `MetaRobotsFinder` state. -/
def metaRobotsInit : MetaRobotsFinder := ⟨true, true⟩

/-- `MetaRobotsFinder.start_element`: returns the new state and whether
`StopParse` was raised.  Source lines 122-130:
a `meta` tag with `name == 'robots'` lowercases its `content` value, splits
it on commas, clears `follow`/`index` when `'nofollow'`/`'noindex'` is one of
the resulting tokens, and stops; a `body` tag stops unconditionally. -/
def MetaRobotsFinder.start_element (st : MetaRobotsFinder) (tag : String)
    (attrs : TagAttributes) : Except PyExc (MetaRobotsFinder × Bool) :=
  if tag = "meta" ∧ pyGet attrs "name" = some "robots" then
    match pyGetD attrs "content" "" with
    | none => .error .attributeError
    | some c =>
      let val := pySplitChar ',' (lowerStr c)
      .ok (⟨decide ("nofollow" ∉ val), decide ("noindex" ∉ val)⟩, true)
  else if tag = "body" then .ok (st, true)
  else .ok (st, false)

/-- Drives `MetaRobotsFinder` over a tag-event sequence in document order,
ceasing delivery once `StopParse` is raised. -/
def runMetaRobots (st : MetaRobotsFinder) : List TagEvent → Except PyExc MetaRobotsFinder
  | [] => .ok st
  | ev :: rest =>
    match st.start_element ev.tag ev.attrs with
    | .error e => .error e
    | .ok (st', true) => .ok st'
    | .ok (st', false) => runMetaRobots st' rest

/-!
## The sort order used by `sorted(...)` (source line 187)

Python `sorted` on strings compares code points lexicographically.
-/

/-- Lexicographic comparison of character lists by code point
(the order Python `sorted` uses on strings). -/
def charListLe : List Char → List Char → Bool
  | [], _ => true
  | _ :: _, [] => false
  | a :: as, b :: bs =>
    if a.toNat < b.toNat then true
    else if b.toNat < a.toNat then false
    else charListLe as bs

/-- The string order of Python `sorted`, as a relation. -/
def strLe (a b : String) : Prop := charListLe a.data b.data = true

instance : DecidableRel strLe := fun a b =>
  instDecidableEqBool (charListLe a.data b.data) true

/-!
## Micro-grammar matchers (source lines 82-92)
-/

/-- The `.+` part of `refresh_re` against the dollar anchor position: the
capture must be non-empty and free of newlines. -/
def refreshAnchor (t' : List Char) : Option (List Char) :=
  if t' ≠ [] ∧ '\n' ∉ t' then some t' else none

/-- The `.+$` part of `refresh_re`: the captured target is non-empty, free of
newlines, and a single final newline of the subject falls outside the capture
(Python `$` also matches just before a trailing newline). -/
def refreshTarget (t : List Char) : Option (List Char) :=
  refreshAnchor (if t.getLast? = some '\n' then t.dropLast else t)

/-- Anchored match of `refresh_re = (?i)^\d+;\s*url=(?P<url>.+)$`
(source line 82) over a character list, returning the `url` capture. -/
def refreshCore (l : List Char) : Option (List Char) :=
  if (l.takeWhile Char.isDigit).isEmpty then none
  else
    match l.dropWhile Char.isDigit with
    | ';' :: r2 =>
      match r2.dropWhile Char.isWhitespace with
      | c1 :: c2 :: c3 :: c4 :: t =>
        if (c1 = 'u' ∨ c1 = 'U') ∧ (c2 = 'r' ∨ c2 = 'R') ∧ (c3 = 'l' ∨ c3 = 'L') ∧ c4 = '='
        then refreshTarget t
        else none
      | _ => none
    | _ => none

/-- `refresh_re.match(value)` returning `mo.group("url")` (source lines
232-234). -/
def refreshMatch (s : String) : Option String :=
  (refreshCore s.data).map (⟨·⟩)

/-- The `\s*\)` tail of `css_url_re`: after the token, optional whitespace
and a closing parenthesis. -/
def cssTryClose (tok rest : List Char) : Option (List Char × List Char) :=
  match rest.dropWhile Char.isWhitespace with
  | ')' :: r' => some (tok, r')
  | _ => none

/-- The bare alternative `[^\)\s]+` of `css_url_re`: a maximal non-empty run
without `')'` or whitespace, followed by `\s*\)`. -/
def cssBare (l1 : List Char) : Option (List Char × List Char) :=
  let tok := l1.takeWhile (fun c => !(c == ')') && !c.isWhitespace)
  if tok.isEmpty then none
  else cssTryClose tok (l1.dropWhile (fun c => !(c == ')') && !c.isWhitespace))

/-- A quoted alternative `'[^']+'` or `"[^"]+"` of `css_url_re`: `r` is the
text after the opening quote `q`; the token keeps its quotes. -/
def cssQuoted (q : Char) (r : List Char) : Option (List Char × List Char) :=
  let inner := r.takeWhile (fun c => !(c == q))
  match r.dropWhile (fun c => !(c == q)) with
  | _ :: r2 => if inner.isEmpty then none else cssTryClose (q :: (inner ++ [q])) r2
  | [] => none

/-- Attempt of `css_url_re` at a position right after a literal `url(`:
`\s*`, then the three alternatives in order (falling back to the bare form
exactly as the regex engine backtracks), then `\s*\)`. -/
def cssMatchAt (l : List Char) : Option (List Char × List Char) :=
  let l1 := l.dropWhile Char.isWhitespace
  match l1 with
  | '\'' :: r =>
    match cssQuoted '\'' r with
    | some x => some x
    | none => cssBare l1
  | '"' :: r =>
    match cssQuoted '"' r with
    | some x => some x
    | none => cssBare l1
  | _ => cssBare l1

/-- `css_url_re.finditer`: scans left to right, attempting a match at every
occurrence of the literal `url(` and resuming after each successful match.
The fuel is an upper bound on the scan length; every step consumes at least
one character. -/
def cssScan (fuel : Nat) (l : List Char) : List (List Char)  :=
  match fuel, l with
  | 0, _ => []
  | _ + 1, [] => []
  | fuel + 1, 'u' :: 'r' :: 'l' :: '(' :: r =>
    (match cssMatchAt r with
     | some (tok, r') => tok :: cssScan fuel r'
     | none => cssScan fuel ('r' :: 'l' :: '(' :: r))
  | fuel + 1, _ :: rest => cssScan fuel rest

/-- All `url` captures of `css_url_re.finditer(s)`, in order (source line
238); tokens keep their surrounding quotes, `unquote` removes them. -/
def cssUrlFindAll (s : String) : List String :=
  (cssScan (s.data.length + 1) s.data).map (⟨·⟩)

/-- Modelled from the spec: `unquote` is `linkcheck.strformat.unquote`, whose
module is not included under `src/`.  Spec 4.2 says the CSS `url()` matcher
"yields the un-quoted token for each occurrence" and "must support
single-quoted, double-quoted, and bare" forms, so with `matching=True` a
leading and a trailing quote are removed only when both are present and are
the same quote character. -/
def unquote (s : String) : String :=
  match s.data with
  | [] => s
  | c :: rest =>
    if (c = '\'' ∨ c = '"') ∧ rest ≠ [] ∧ rest.getLast? = some c
    then ⟨rest.dropLast⟩ else s

/-!
## Classification predicates (source lines 133-152)
-/

/-- `is_meta_url` (source lines 133-143): does this `meta` attribute carry a
URL?  `content` qualifies when `http-equiv` is `refresh` or `scheme` is
`dcterms.uri` (both lowercased); `href` qualifies when `rel` is
`shortcut icon` or `icon` (lowercased).  A sibling attribute that is present
with value `None` makes `.lower()` raise `AttributeError`. -/
def is_meta_url (attr : String) (attrs : TagAttributes) : Except PyExc Bool :=
  if attr = "content" then
    match pyGetD attrs "http-equiv" "", pyGetD attrs "scheme" "" with
    | some equiv, some scheme =>
      .ok (decide (lowerStr equiv = "refresh" ∨ lowerStr scheme = "dcterms.uri"))
    | _, _ => .error .attributeError
  else if attr = "href" then
    match pyGetD attrs "rel" "" with
    | some rel => .ok (decide (lowerStr rel = "shortcut icon" ∨ lowerStr rel = "icon"))
    | none => .error .attributeError
  else .ok false

/-- `is_form_get` (source lines 146-152): a form `action` qualifies when the
`method` attribute, lowercased, differs from `post` (absent defaults to
`''`). -/
def is_form_get (attr : String) (attrs : TagAttributes) : Except PyExc Bool :=
  if attr = "action" then
    match pyGetD attrs "method" "" with
    | some method => .ok (decide (¬ lowerStr method = "post"))
    | none => .error .attributeError
  else .ok false

/-!
## `LinkFinder` (source lines 155-254)
-/

/-- One sink call `(url, line, column, name, base)` (source lines 251-254). -/
structure LinkCandidate where
  url : PyVal
  name : String
  base : String
  lineno : Nat
  column : Nat
deriving DecidableEq

/-- The `LinkFinder` object: configuration (ignore classes, effective rule
table, wildcard attributes) plus the one mutable field `base_ref`. -/
structure LinkFinder where
  ignore_classes : List String
  universal_attrs : List String
  tags : List (Option String × List String)
  base_ref : PyVal
deriving DecidableEq

/-- Python set union `set(a).update(b)` on duplicate-free lists. -/
def setUnion (a b : List String) : List String :=
  a ++ b.filter (fun x => decide (x ∉ a))

/-- `LinkFinder.__init__` (source lines 159-171): unions the wildcard (`None`
key) attributes into every tag's attribute set and starts with an empty
`base_ref`. -/
def mkLinkFinder (tags : List (Option String × List String))
    (ignore_classes : List String) : LinkFinder :=
  let universal := (tblLookup tags none).getD []
  { ignore_classes := ignore_classes
    universal_attrs := universal
    tags := tags.map (fun p => (p.1, setUnion p.2 universal))
    base_ref := some "" }

/-- The link extractor over the HTML table with no ignored classes. -/
def htmlLinkFinder : LinkFinder := mkLinkFinder LinkTags []

/-- `LinkFinder.get_link_name` (source lines 210-221), called with
`element_text` as the `name` argument (source line 193): for `a`/`href` the
element text, falling back to `title` when empty; for `img` the `alt`
attribute, falling back to `title`; empty otherwise. -/
def LinkFinder.get_link_name (tag : String) (attrs : TagAttributes)
    (attr : String) (name : String) : PyVal :=
  if tag = "a" ∧ attr = "href" then
    if name = "" then pyGetD attrs "title" "" else some name
  else if tag = "img" then
    let n := pyGetD attrs "alt" ""
    if pyTruthy n = true then n else pyGetD attrs "title" ""
  else some ""

/-- The `srcset` loop of `parse_tag` (source lines 244-247): for each
comma-segment the first whitespace token is emitted; a segment without
tokens makes `[0]` raise `IndexError`, after the preceding segments'
candidates were already delivered to the sink. -/
def srcsetEmit (segs : List String) (name base : String) (lineno column : Nat) :
    List LinkCandidate × Option PyExc :=
  match segs with
  | [] => ([], none)
  | seg :: rest =>
    match pySplitWs seg with
    | [] => ([], some .indexError)
    | url :: _ =>
      let r := srcsetEmit rest name base lineno column
      (⟨some url, name, base, lineno, column⟩ :: r.1, r.2)

/-- `LinkFinder.parse_tag` (source lines 223-249).  Returns the sink calls it
makes, in order, paired with the exception that aborted it, if any.  The
`isinstance` assertions on `name` and `base` are the `assertionError` case;
`value` may legitimately be `None`. -/
def LinkFinder.parse_tag (tag attr : String) (value : PyVal) (name base : PyVal)
    (lineno column : Nat) : List LinkCandidate × Option PyExc :=
  match name, base with
  | some name, some base =>
    if tag = "meta" ∧ pyTruthy value = true then
      match value with
      | some v =>
        match refreshMatch v with
        | some url => ([⟨some url, name, base, lineno, column⟩], none)
        | none =>
          if ¬ attr = "content" then ([⟨some v, name, base, lineno, column⟩], none)
          else ([], none)
      | none => ([], none)
    else if attr = "style" ∧ pyTruthy value = true then
      match value with
      | some v =>
        ((cssUrlFindAll v).map (fun u => ⟨some (unquote u), name, base, lineno, column⟩), none)
      | none => ([], none)
    else if attr = "archive" then
      match value with
      | none => ([], some .attributeError)
      | some v =>
        ((pySplitChar ',' v).map (fun u => ⟨some u, name, base, lineno, column⟩), none)
    else if attr = "srcset" then
      match value with
      | none => ([], some .attributeError)
      | some v => srcsetEmit (pySplitChar ',' v) name base lineno column
    else ([⟨value, name, base, lineno, column⟩], none)
  | _, _ => ([], some .assertionError)

/-- The attribute iteration list of `start_element` (source lines 185-187):
the tag's effective attribute set, restricted to the attributes present on
the event, in Python `sorted` order. -/
def attr_iter (lf : LinkFinder) (tag : String) (attrs : TagAttributes) : List String :=
  let tagattrs :=
    match tblLookup lf.tags (some tag) with
    | some s => s
    | none => lf.universal_attrs
  List.insertionSort strLe (tagattrs.filter (fun a => pyHasKey attrs a))

/-- The per-attribute loop of `start_element` (source lines 187-207): the
classification predicates, link name, codebase, the `dns-prefetch` rewrite
(source lines 202-205) and the dispatch to `parse_tag`, accumulating sink
calls until an exception aborts the event. -/
def LinkFinder.processAttrs (lf : LinkFinder) (tag : String) (attrs : TagAttributes)
    (etext : String) (lineno column : Nat) :
    List String → List LinkCandidate × Option PyExc
  | [] => ([], none)
  | attr :: rest =>
    match (if tag = "meta" then is_meta_url attr attrs else .ok true) with
    | .error e => ([], some e)
    | .ok metaOk =>
      if tag = "meta" ∧ metaOk = false then
        lf.processAttrs tag attrs etext lineno column rest
      else
        match (if tag = "form" then is_form_get attr attrs else .ok true) with
        | .error e => ([], some e)
        | .ok formOk =>
          if tag = "form" ∧ formOk = false then
            lf.processAttrs tag attrs etext lineno column rest
          else
            let name := LinkFinder.get_link_name tag attrs attr etext
            let base0 := if tag = "applet" then pyGetD attrs "codebase" "" else some ""
            let base := if pyTruthy base0 = true then base0 else lf.base_ref
            let value := pyGet attrs attr
            match (if tag = "link" ∧ pyGet attrs "rel" = some "dns-prefetch" then
                     match value with
                     | none => Except.error PyExc.typeError
                     | some v =>
                       Except.ok (some ("dns:" ++
                         pyRstripSlash (if pyInStr ':' v = true then afterFirstColon v else v)) : PyVal)
                   else Except.ok value) with
            | .error e => ([], some e)
            | .ok value2 =>
              let r := LinkFinder.parse_tag tag attr value2 name base lineno column
              match r.2 with
              | some e => (r.1, some e)
              | none =>
                let rr := lf.processAttrs tag attrs etext lineno column rest
                (r.1 ++ rr.1, rr.2)

/-- `LinkFinder.start_element` (source lines 173-208): records the first
truthy-free `base` href, skips classed anchors in the ignore set, and runs
the attribute loop.  Returns the updated object and the sink calls with an
optional aborting exception. -/
def LinkFinder.start_element (lf : LinkFinder) (ev : TagEvent) :
    LinkFinder × (List LinkCandidate × Option PyExc) :=
  let lf' :=
    if ev.tag = "base" ∧ pyTruthy lf.base_ref = false
    then { lf with base_ref := pyGetD ev.attrs "href" "" } else lf
  if ev.tag = "a" ∧ pyTruthy (pyGet ev.attrs "class") = true ∧
     ¬ lf'.ignore_classes.isEmpty = true ∧
     (pySplitWs ((pyGet ev.attrs "class").getD "")).any
       (fun item => decide (item ∈ lf'.ignore_classes)) = true
  then (lf', ([], none))
  else
    (lf', lf'.processAttrs ev.tag ev.attrs ev.elementText ev.lineno ev.column
      (attr_iter lf' ev.tag ev.attrs))

/-- Drives a `LinkFinder` over a tag-event sequence in document order; an
exception raised inside one event aborts the whole scan, keeping the sink
calls made up to that point. -/
def runLinkFinder (lf : LinkFinder) :
    List TagEvent → LinkFinder × List LinkCandidate × Option PyExc
  | [] => (lf, [], none)
  | ev :: rest =>
    let r := lf.start_element ev
    match r.2.2 with
    | some e => (r.1, r.2.1, some e)
    | none =>
      let rr := runLinkFinder r.1 rest
      (rr.1, r.2.1 ++ rr.2.1, rr.2.2)

/-- The grammar of `refresh_re` subjects over character lists, stated as the
spec phrases it (amended): digits, a semicolon, optional whitespace, a
case-insensitive `url=` keyword, and a non-empty newline-free target taken
verbatim, with a single trailing newline of the subject excluded by the end
anchor. -/
def RefreshCoreGrammar (l r : List Char) : Prop :=
  ∃ ds sp c1 c2 c3 nl,
    l = ds ++ ';' :: (sp ++ c1 :: c2 :: c3 :: '=' :: (r ++ nl)) ∧
    ds ≠ [] ∧ (∀ c ∈ ds, Char.isDigit c = true) ∧
    (∀ c ∈ sp, Char.isWhitespace c = true) ∧
    (c1 = 'u' ∨ c1 = 'U') ∧ (c2 = 'r' ∨ c2 = 'R') ∧ (c3 = 'l' ∨ c3 = 'L') ∧
    r ≠ [] ∧ '\n' ∉ r ∧ (nl = [] ∨ nl = ['\n'])

/-- `RefreshCoreGrammar` lifted to strings. -/
def RefreshGrammar (s t : String) : Prop :=
  RefreshCoreGrammar s.data t.data

/-!
## Helper lemmas
-/

theorem charListLe_total : ∀ as bs : List Char, charListLe as bs = true ∨ charListLe bs as = true
  | [], _ => Or.inl rfl
  | _ :: _, [] => Or.inr rfl
  | a :: as, b :: bs => by
    rcases Nat.lt_trichotomy a.toNat b.toNat with h | h | h
    · left; simp [charListLe, h]
    · have h1 : ¬ a.toNat < b.toNat := by omega
      have h2 : ¬ b.toNat < a.toNat := by omega
      rcases charListLe_total as bs with ih | ih
      · left; simp [charListLe, h1, h2, ih]
      · right; simp [charListLe, h1, h2, ih]
    · right; simp [charListLe, h]

theorem charListLe_trans : ∀ as bs cs : List Char,
    charListLe as bs = true → charListLe bs cs = true → charListLe as cs = true
  | [], _, _, _, _ => rfl
  | _ :: _, [], _, h1, _ => by simp [charListLe] at h1
  | _ :: _, _ :: _, [], _, h2 => by simp [charListLe] at h2
  | a :: as, b :: bs, c :: cs, h1, h2 => by
    rcases Nat.lt_trichotomy a.toNat b.toNat with hab | hab | hab
    · rcases Nat.lt_trichotomy b.toNat c.toNat with hbc | hbc | hbc
      · simp [charListLe, show a.toNat < c.toNat from Nat.lt_trans hab hbc]
      · simp [charListLe, show a.toNat < c.toNat from hbc ▸ hab]
      · simp [charListLe, show ¬ b.toNat < c.toNat from by omega, hbc] at h2
    · rcases Nat.lt_trichotomy b.toNat c.toNat with hbc | hbc | hbc
      · simp [charListLe, show a.toNat < c.toNat from hab ▸ hbc]
      · have hrec := charListLe_trans as bs cs
          (by simpa [charListLe, show ¬ a.toNat < b.toNat from by omega,
                show ¬ b.toNat < a.toNat from by omega] using h1)
          (by simpa [charListLe, show ¬ b.toNat < c.toNat from by omega,
                show ¬ c.toNat < b.toNat from by omega] using h2)
        simp [charListLe, show ¬ a.toNat < c.toNat from by omega,
          show ¬ c.toNat < a.toNat from by omega, hrec]
      · simp [charListLe, show ¬ b.toNat < c.toNat from by omega, hbc] at h2
    · simp [charListLe, show ¬ a.toNat < b.toNat from by omega, hab] at h1

instance : IsTotal String strLe := ⟨fun a b => charListLe_total a.data b.data⟩

instance : IsTrans String strLe := ⟨fun a b c => charListLe_trans a.data b.data c.data⟩

theorem takeWhile_all_append (p : Char → Bool) (l₁ : List Char) (x : Char) (l₂ : List Char)
    (h1 : ∀ c ∈ l₁, p c = true) (hx : p x = false) :
    (l₁ ++ x :: l₂).takeWhile p = l₁ ∧ (l₁ ++ x :: l₂).dropWhile p = x :: l₂ := by
  induction l₁ with
  | nil => simp [List.takeWhile_cons, List.dropWhile_cons, hx]
  | cons a l ih =>
    have ha : p a = true := h1 a (by simp)
    have ih' := ih (fun c hc => h1 c (by simp [hc]))
    simp [List.takeWhile_cons, List.dropWhile_cons, ha, ih'.1, ih'.2]

theorem refreshAnchor_eq_some (t' r : List Char) :
    refreshAnchor t' = some r ↔ (r ≠ [] ∧ '\n' ∉ r ∧ t' = r) := by
  unfold refreshAnchor
  split
  · rename_i hc
    constructor
    · intro h; cases h; exact ⟨hc.1, hc.2, rfl⟩
    · rintro ⟨-, -, rfl⟩; rfl
  · rename_i hc
    constructor
    · intro h; exact absurd h (by simp)
    · rintro ⟨h1, h2, rfl⟩; exact absurd ⟨h1, h2⟩ hc

theorem refreshTarget_eq_some (t r : List Char) :
    refreshTarget t = some r ↔
      (r ≠ [] ∧ '\n' ∉ r ∧ (t = r ∨ t = r ++ ['\n'])) := by
  unfold refreshTarget
  by_cases hlast : t.getLast? = some '\n'
  · rw [if_pos hlast, refreshAnchor_eq_some]
    rcases List.getLast?_eq_some_iff.1 hlast with ⟨ys, rfl⟩
    rw [List.dropLast_concat]
    constructor
    · rintro ⟨h1, h2, rfl⟩; exact ⟨h1, h2, Or.inr rfl⟩
    · rintro ⟨h1, h2, ht | ht⟩
      · exact absurd (ht ▸ (by simp : '\n' ∈ ys ++ ['\n'])) h2
      · exact ⟨h1, h2, by simpa using ht⟩
  · rw [if_neg hlast, refreshAnchor_eq_some]
    constructor
    · rintro ⟨h1, h2, rfl⟩; exact ⟨h1, h2, Or.inl rfl⟩
    · rintro ⟨h1, h2, ht | ht⟩
      · exact ⟨h1, h2, ht⟩
      · exact absurd (by rw [ht]; exact List.getLast?_concat r) hlast

theorem refreshCore_iff (l r : List Char) :
    refreshCore l = some r ↔ RefreshCoreGrammar l r := by
  constructor
  · intro h
    unfold refreshCore at h
    split at h
    · exact absurd h (by simp)
    · rename_i hds
      split at h
      · rename_i r2 hdrop
        split at h
        · rename_i c1 c2 c3 c4 t hdrop2
          split at h
          · rename_i hkw
            obtain ⟨hkw1, hkw2, hkw3, rfl⟩ := hkw
            have hl := (List.takeWhile_append_dropWhile (p := Char.isDigit) (l := l)).symm
            rw [hdrop] at hl
            have hr2 := (List.takeWhile_append_dropWhile (p := Char.isWhitespace) (l := r2)).symm
            rw [hdrop2] at hr2
            have hdsne : l.takeWhile Char.isDigit ≠ [] := fun hempty =>
              hds (by simp [hempty])
            rcases (refreshTarget_eq_some t r).1 h with ⟨hr, hnl, ht | ht⟩
            · refine ⟨l.takeWhile Char.isDigit, r2.takeWhile Char.isWhitespace,
                c1, c2, c3, [], ?_, hdsne,
                fun c hc => List.mem_takeWhile_imp hc,
                fun c hc => List.mem_takeWhile_imp hc,
                hkw1, hkw2, hkw3, hr, hnl, Or.inl rfl⟩
              rw [ht] at hr2
              rw [hr2] at hl
              simpa using hl
            · refine ⟨l.takeWhile Char.isDigit, r2.takeWhile Char.isWhitespace,
                c1, c2, c3, ['\n'], ?_, hdsne,
                fun c hc => List.mem_takeWhile_imp hc,
                fun c hc => List.mem_takeWhile_imp hc,
                hkw1, hkw2, hkw3, hr, hnl, Or.inr rfl⟩
              rw [ht] at hr2
              rw [hr2] at hl
              exact hl
          · exact absurd h (by simp)
        · exact absurd h (by simp)
      · exact absurd h (by simp)
  · rintro ⟨ds, sp, c1, c2, c3, nl, rfl, hds, hdig, hws, hc1, hc2, hc3, hr, hnl, hnlcase⟩
    have hsemi : Char.isDigit ';' = false := rfl
    obtain ⟨htake, hdrop⟩ :=
      takeWhile_all_append Char.isDigit ds ';' (sp ++ c1 :: c2 :: c3 :: '=' :: (r ++ nl)) hdig hsemi
    have hws1 : Char.isWhitespace c1 = false := by
      rcases hc1 with rfl | rfl <;> rfl
    obtain ⟨-, hdrop2⟩ :=
      takeWhile_all_append Char.isWhitespace sp c1 (c2 :: c3 :: '=' :: (r ++ nl)) hws hws1
    have hempty :
        ((ds ++ ';' :: (sp ++ c1 :: c2 :: c3 :: '=' :: (r ++ nl))).takeWhile Char.isDigit).isEmpty
          = false := by
      rw [htake]; simpa using hds
    unfold refreshCore
    simp only [hempty, Bool.false_eq_true, if_false, hdrop, hdrop2]
    rw [if_pos ⟨hc1, hc2, hc3, by trivial⟩]
    refine (refreshTarget_eq_some _ r).2 ⟨hr, hnl, ?_⟩
    rcases hnlcase with rfl | rfl
    · exact Or.inl (List.append_nil r)
    · exact Or.inr rfl

theorem start_element_fst (lf : LinkFinder) (ev : TagEvent) :
    (lf.start_element ev).1 =
      if ev.tag = "base" ∧ pyTruthy lf.base_ref = false
      then { lf with base_ref := pyGetD ev.attrs "href" "" } else lf := by
  unfold LinkFinder.start_element
  split <;> (dsimp only []) <;> split <;> rfl

theorem base_ref_persists (lf : LinkFinder) (evs : List TagEvent)
    (h : pyTruthy lf.base_ref = true) :
    (runLinkFinder lf evs).1.base_ref = lf.base_ref := by
  induction evs generalizing lf with
  | nil => rfl
  | cons ev rest ih =>
    have h1 : (lf.start_element ev).1 = lf := by
      rw [start_element_fst, if_neg]
      rintro ⟨-, hf⟩
      rw [h] at hf
      cases hf
    cases hr : (lf.start_element ev).2.2 with
    | some e => simp [runLinkFinder, hr, h1]
    | none => simp [runLinkFinder, hr, h1, ih lf h]

theorem base_ref_set (lf : LinkFinder) (attrs : TagAttributes) (etext : String) (l c : Nat)
    (h : pyTruthy lf.base_ref = false) :
    ((lf.start_element ⟨"base", attrs, etext, l, c⟩).1).base_ref = pyGetD attrs "href" "" := by
  rw [start_element_fst, if_pos ⟨rfl, h⟩]

theorem runLinkFinder_single (lf : LinkFinder) (ev : TagEvent) :
    runLinkFinder lf [ev] =
      ((lf.start_element ev).1, (lf.start_element ev).2.1, (lf.start_element ev).2.2) := by
  rcases hse : lf.start_element ev with ⟨lf', cands, err⟩
  cases err <;> simp [runLinkFinder, hse]

theorem processAttrs_form (m v : String) (l c : Nat) (et : String) (b : Bool)
    (hb : is_form_get "action" [("method", some m), ("action", some v)] = .ok b) :
    htmlLinkFinder.processAttrs "form" [("method", some m), ("action", some v)] et l c ["action"]
      = ((if b then [⟨some v, "", "", l, c⟩] else []), none) := by
  cases b with
  | false =>
    unfold LinkFinder.processAttrs
    simp [hb, LinkFinder.processAttrs]
  | true =>
    unfold LinkFinder.processAttrs
    simp only [hb]
    rfl

theorem form_run_general (m v : String) (l c : Nat) (et : String) :
    runLinkFinder htmlLinkFinder [⟨"form", [("method", some m), ("action", some v)], et, l, c⟩]
      = (htmlLinkFinder,
         (if lowerStr m = "post" then [] else [⟨some v, "", "", l, c⟩]), none) := by
  have hb : is_form_get "action" [("method", some m), ("action", some v)]
      = .ok (decide (¬ lowerStr m = "post")) := rfl
  rw [runLinkFinder_single]
  rw [show htmlLinkFinder.start_element ⟨"form", [("method", some m), ("action", some v)], et, l, c⟩
      = (htmlLinkFinder,
         htmlLinkFinder.processAttrs "form" [("method", some m), ("action", some v)] et l c ["action"])
    from rfl]
  rw [processAttrs_form m v l c et _ hb]
  by_cases h : lowerStr m = "post" <;> simp [h]

/-!
## Claims
-/

/-- Claim C1, counterexample.  On the tag event
`<meta name="robots" content="noindex, nofollow">` the robots extractor
leaves `follow = true` (the comma token is `' nofollow'`, with its leading
space, which is not equal to `'nofollow'`), so the claimed outcome
`follow = false, index = false` is refuted: the run does not end in the
state `⟨false, false⟩`, it ends in `⟨true, false⟩`. -/
theorem c1_robots_counterexample :
    (runMetaRobots metaRobotsInit
        [⟨"meta", [("name", some "robots"), ("content", some "noindex, nofollow")], "", 1, 1⟩]
      = .ok ⟨true, false⟩) ∧
    ¬ (runMetaRobots metaRobotsInit
        [⟨"meta", [("name", some "robots"), ("content", some "noindex, nofollow")], "", 1, 1⟩]
      = .ok ⟨false, false⟩) :=
  ⟨rfl, by decide⟩

/-- Claim C1, amended.  Processing a `<meta name="robots">` event lowercases
the `content` value and splits it on commas; `follow` (resp. `index`)
becomes false exactly when `nofollow` (resp. `noindex`) is one of the
resulting tokens, compared verbatim (no whitespace stripping); the
stop-parsing signal is raised, so no subsequent tag event is processed.  On
the event `<meta name="robots" content="noindex, nofollow">` this yields
`index = false` but `follow = true`, because the second token keeps its
leading space. -/
theorem c1_robots_amended (c : String) (st : MetaRobotsFinder) (etext : String)
    (l col : Nat) (rest : List TagEvent) :
    (runMetaRobots st
        (⟨"meta", [("name", some "robots"), ("content", some c)], etext, l, col⟩ :: rest)
      = .ok ⟨decide ("nofollow" ∉ pySplitChar ',' (lowerStr c)),
             decide ("noindex" ∉ pySplitChar ',' (lowerStr c))⟩) ∧
    (MetaRobotsFinder.start_element st "meta" [("name", some "robots"), ("content", some c)]
      = .ok (⟨decide ("nofollow" ∉ pySplitChar ',' (lowerStr c)),
              decide ("noindex" ∉ pySplitChar ',' (lowerStr c))⟩, true)) ∧
    (runMetaRobots metaRobotsInit
        (⟨"meta", [("name", some "robots"), ("content", some "noindex, nofollow")], etext, l, col⟩
          :: rest)
      = .ok ⟨true, false⟩) :=
  ⟨rfl, rfl, rfl⟩

/-- Claim C2, counterexample.  The tag event
`<link rel="dns-prefetch" href="https://cdn.example.com/">` produces one
sink call, but its url is `dns://cdn.example.com`, not the claimed
`dns:cdn.example.com`: `split(':', 1)[1]` keeps the `//` that follows the
scheme's colon. -/
theorem c2_dns_prefetch_counterexample :
    ((runLinkFinder htmlLinkFinder
        [⟨"link", [("rel", some "dns-prefetch"), ("href", some "https://cdn.example.com/")],
          "", 1, 1⟩]).2.1.map (fun cand => cand.url)
      = [some "dns://cdn.example.com"]) ∧
    ¬ ((runLinkFinder htmlLinkFinder
        [⟨"link", [("rel", some "dns-prefetch"), ("href", some "https://cdn.example.com/")],
          "", 1, 1⟩]).2.1.map (fun cand => cand.url)
      = [some "dns:cdn.example.com"]) :=
  ⟨rfl, by decide⟩

/-- Claim C2, amended.  When the tag is `link` and `rel` is `dns-prefetch`,
exactly one sink call is made for the `href` value: everything up to and
including the first `':'` is removed (leaving any following `//` in place),
all trailing slashes are stripped, and the literal prefix `dns:` is
prepended.  For `href="https://cdn.example.com/"` the emitted url is
therefore `dns://cdn.example.com`. -/
theorem c2_dns_prefetch_amended (v et : String) (l c : Nat) :
    runLinkFinder htmlLinkFinder
        [⟨"link", [("rel", some "dns-prefetch"), ("href", some v)], et, l, c⟩]
      = (htmlLinkFinder,
         [⟨some ("dns:" ++ pyRstripSlash (if pyInStr ':' v = true then afterFirstColon v else v)),
           "", "", l, c⟩], none) :=
  rfl

/-- Claim C9.  A `srcset` value containing a comma-segment with no
non-whitespace characters makes value decomposition raise `IndexError`
(indexing the empty token list of that segment): an all-whitespace value
raises before any sink call, and the claim's example `srcset="a.jpg 1x,"`
raises on the empty segment after the trailing comma, after the sink call
for `a.jpg` was made; neither input degrades to a fallback. -/
theorem c9_srcset_exception :
    (runLinkFinder htmlLinkFinder [⟨"img", [("srcset", some " ")], "", 1, 1⟩]
      = (htmlLinkFinder, [], some .indexError)) ∧
    (runLinkFinder htmlLinkFinder [⟨"img", [("srcset", some "a.jpg 1x,")], "", 1, 1⟩]
      = (htmlLinkFinder, [⟨some "a.jpg", "", "", 1, 1⟩], some .indexError)) :=
  ⟨rfl, rfl⟩

/-- Claim C10.  An `archive` attribute present with an absent value makes
value decomposition raise `AttributeError` (`None.split(',')`) with no sink
call, whereas the generic path for other attributes (here `src` on the same
tag) emits a single candidate whose url is absent. -/
theorem c10_archive_exception :
    (runLinkFinder htmlLinkFinder [⟨"applet", [("archive", none)], "", 1, 1⟩]
      = (htmlLinkFinder, [], some .attributeError)) ∧
    (runLinkFinder htmlLinkFinder [⟨"applet", [("src", none)], "", 1, 1⟩]
      = (htmlLinkFinder, [⟨none, "", "", 1, 1⟩], none)) :=
  ⟨rfl, rfl⟩

/-- Claim C3, counterexample.  The meta-refresh matcher does not trim
whitespace around the target: on the value `0;url= a ` it yields the target
`' a '` verbatim, not the claimed trimmed `'a'`. -/
theorem c3_refresh_counterexample :
    (refreshMatch "0;url= a " = some " a ") ∧ ¬ (refreshMatch "0;url= a " = some "a") :=
  ⟨rfl, by decide⟩

/-- Claim C3, amended.  The matcher succeeds exactly on values of the form
`<digits>;<whitespace>*url=<target>` with a case-insensitive `url` keyword
and a non-empty newline-free target, and it yields the target verbatim — no
leading or trailing whitespace is trimmed; only a single final newline of
the whole value is excluded by the end anchor.  Every other value yields no
match. -/
theorem c3_refresh_amended (s t : String) :
    refreshMatch s = some t ↔ RefreshGrammar s t := by
  unfold refreshMatch RefreshGrammar
  constructor
  · intro h
    rcases ho : refreshCore s.data with _ | r
    · rw [ho] at h; exact absurd h (by simp)
    · rw [ho] at h
      have h' : some (String.mk r) = some t := h
      obtain rfl := Option.some.inj h'
      exact (refreshCore_iff s.data r).1 ho
  · intro h
    rw [(refreshCore_iff s.data t.data).2 h]
    rfl

/-- Claim C3, witness: the amended characterization applied at the concrete
value `5;url=x`, whose match (computed by `rfl`) certifies the grammar
decomposition. -/
theorem c3_refresh_witness : RefreshGrammar "5;url=x" "x" :=
  (c3_refresh_amended "5;url=x" "x").mp rfl

/-- Claim C4, counterexample.  `is_meta_url` also accepts the `content`
attribute when the sibling `scheme` attribute equals `dcterms.uri`, even
though `http-equiv` (defaulting to the empty string) is not `refresh`; the
claim's "only if the sibling http-equiv value equals refresh" is refuted. -/
theorem c4_meta_url_counterexample :
    (is_meta_url "content" [("scheme", some "dcterms.uri")] = .ok true) ∧
    (pyGetD [("scheme", some "dcterms.uri")] "http-equiv" "" = some "") ∧
    ¬ lowerStr "" = "refresh" :=
  ⟨rfl, rfl, by decide⟩

/-- Claim C4, amended.  For attribute maps whose relevant sibling values are
strings, the URL-bearing meta test accepts `content` exactly when
`http-equiv` lowercases to `refresh` or `scheme` lowercases to
`dcterms.uri`, accepts `href` exactly when `rel` lowercases to
`shortcut icon` or `icon`, and rejects every other attribute. -/
theorem c4_meta_url_amended (attr : String) (attrs : TagAttributes) (e s r : String)
    (he : pyGetD attrs "http-equiv" "" = some e) (hs : pyGetD attrs "scheme" "" = some s)
    (hr : pyGetD attrs "rel" "" = some r) :
    is_meta_url attr attrs =
      .ok (decide ((attr = "content" ∧ (lowerStr e = "refresh" ∨ lowerStr s = "dcterms.uri")) ∨
                   (attr = "href" ∧ (lowerStr r = "shortcut icon" ∨ lowerStr r = "icon")))) := by
  unfold is_meta_url
  by_cases hc : attr = "content"
  · rw [if_pos hc, he, hs]
    exact congrArg _ (decide_eq_decide.mpr (by simp [hc]))
  · rw [if_neg hc]
    by_cases hh : attr = "href"
    · rw [if_pos hh, hr]
      exact congrArg _ (decide_eq_decide.mpr (by simp [hc, hh]))
    · rw [if_neg hh]
      simp [hc, hh]

/-- Claim C4, witness: the amended theorem applied to
`<meta http-equiv="REFRESH" content=...>`, where the test accepts `content`
(case-insensitively). -/
theorem c4_meta_url_witness :
    (pyGetD [("http-equiv", some "REFRESH")] "http-equiv" "" = some "REFRESH") ∧
    (is_meta_url "content" [("http-equiv", some "REFRESH")] = .ok true) :=
  ⟨rfl, by
    have h := c4_meta_url_amended "content" [("http-equiv", some "REFRESH")] "REFRESH" "" ""
      rfl rfl rfl
    exact h.trans (by decide)⟩

/-- Claim C5, counterexample.  For an `a`/`href` candidate the element text
takes priority over the `title` attribute: the event
`<a href="/x" title="T">` with element text `Click` emits the name `Click`,
not the claimed `T`. -/
theorem c5_link_name_counterexample :
    ((runLinkFinder htmlLinkFinder
        [⟨"a", [("href", some "/x"), ("title", some "T")], "Click", 1, 1⟩]).2.1.map
        (fun cand => cand.name) = ["Click"]) ∧
    ¬ ((runLinkFinder htmlLinkFinder
        [⟨"a", [("href", some "/x"), ("title", some "T")], "Click", 1, 1⟩]).2.1.map
        (fun cand => cand.name) = ["T"]) :=
  ⟨rfl, by decide⟩

/-- Claim C5, amended.  The name of an emitted candidate is: for `a`/`href`,
the event's element text when non-empty, else the `title` attribute value
(defaulting to empty); for `img`, the `alt` attribute when non-empty, else
the `title` attribute (the element text is ignored); the empty string for
every other tag/attribute pair. -/
theorem c5_link_name_amended :
    (∀ (v t : String) (l c : Nat),
      runLinkFinder htmlLinkFinder [⟨"a", [("href", some v), ("title", some t)], "", l, c⟩]
        = (htmlLinkFinder, [⟨some v, t, "", l, c⟩], none)) ∧
    (∀ (v t : String) (l c : Nat) (ch : Char) (cs : List Char),
      runLinkFinder htmlLinkFinder [⟨"a", [("href", some v), ("title", some t)], ⟨ch :: cs⟩, l, c⟩]
        = (htmlLinkFinder, [⟨some v, ⟨ch :: cs⟩, "", l, c⟩], none)) ∧
    (∀ (v t et : String) (l c : Nat),
      runLinkFinder htmlLinkFinder
          [⟨"img", [("src", some v), ("alt", some ""), ("title", some t)], et, l, c⟩]
        = (htmlLinkFinder, [⟨some v, t, "", l, c⟩], none)) ∧
    (∀ (v t et : String) (l c : Nat) (ch : Char) (cs : List Char),
      runLinkFinder htmlLinkFinder
          [⟨"img", [("src", some v), ("alt", some ⟨ch :: cs⟩), ("title", some t)], et, l, c⟩]
        = (htmlLinkFinder, [⟨some v, ⟨ch :: cs⟩, "", l, c⟩], none)) ∧
    (∀ (v t et : String) (l c : Nat),
      runLinkFinder htmlLinkFinder [⟨"script", [("src", some v), ("title", some t)], et, l, c⟩]
        = (htmlLinkFinder, [⟨some v, "", "", l, c⟩], none)) := by
  refine ⟨?_, ?_, ?_, ?_, ?_⟩ <;> intros <;> rfl

/-- Claim C6, counterexample.  The document base is not "set at most once by
the first base tag": a first `<base>` with an absent `href` records the
empty text, which is falsy, so a second `<base href="/b">` still changes
the base to `/b`. -/
theorem c6_base_ref_counterexample :
    ((runLinkFinder htmlLinkFinder
        [⟨"base", [], "", 1, 1⟩, ⟨"base", [("href", some "/b")], "", 2, 1⟩]).1.base_ref
      = some "/b") ∧
    ¬ ((runLinkFinder htmlLinkFinder
        [⟨"base", [], "", 1, 1⟩, ⟨"base", [("href", some "/b")], "", 2, 1⟩]).1.base_ref
      = some "") :=
  ⟨rfl, by decide⟩

/-- Claim C6, amended.  Once the recorded base is truthy (a non-empty text),
no later tag event ever changes it; while the recorded base is falsy (the
initial empty text, or an empty/absent href recorded earlier), a `base` tag
event records its `href` value (empty text when absent) as the document
base. -/
theorem c6_base_ref_amended :
    (∀ (lf : LinkFinder) (evs : List TagEvent), pyTruthy lf.base_ref = true →
      (runLinkFinder lf evs).1.base_ref = lf.base_ref) ∧
    (∀ (lf : LinkFinder) (attrs : TagAttributes) (etext : String) (l c : Nat),
      pyTruthy lf.base_ref = false →
      ((lf.start_element ⟨"base", attrs, etext, l, c⟩).1).base_ref = pyGetD attrs "href" "") :=
  ⟨base_ref_persists, base_ref_set⟩

/-- Claim C6, witness: the amended theorem applied to a finder whose base is
already the non-empty `/seen` (left unchanged by a later `base` event) and
to a finder whose base is still empty (set to `/new` by a `base` event). -/
theorem c6_base_ref_witness :
    (pyTruthy ({ htmlLinkFinder with base_ref := some "/seen" } : LinkFinder).base_ref = true ∧
      (runLinkFinder { htmlLinkFinder with base_ref := some "/seen" }
        [⟨"base", [("href", some "/new")], "", 1, 1⟩]).1.base_ref = some "/seen") ∧
    (pyTruthy htmlLinkFinder.base_ref = false ∧
      ((htmlLinkFinder.start_element ⟨"base", [("href", some "/new")], "", 1, 1⟩).1).base_ref
        = some "/new") :=
  ⟨⟨rfl, c6_base_ref_amended.1 _ _ rfl⟩, ⟨rfl, c6_base_ref_amended.2 _ _ "" 1 1 rfl⟩⟩

/-- Claim C7.  Extraction is deterministic: two link extractors built from
equal rule tables and equal ignore-class sets, run over equal tag-event
sequences, produce identical results (in particular the same ordered
sequence of sink calls); and within one tag event the link-bearing
attributes are iterated in sorted (code-point lexicographic) order. -/
theorem c7_deterministic :
    (∀ (t1 t2 : List (Option String × List String)) (i1 i2 : List String)
        (evs1 evs2 : List TagEvent), t1 = t2 → i1 = i2 → evs1 = evs2 →
      runLinkFinder (mkLinkFinder t1 i1) evs1 = runLinkFinder (mkLinkFinder t2 i2) evs2) ∧
    (∀ (lf : LinkFinder) (tag : String) (attrs : TagAttributes),
      List.Sorted strLe (attr_iter lf tag attrs)) := by
  constructor
  · rintro t1 t2 i1 i2 evs1 evs2 rfl rfl rfl
    rfl
  · intro lf tag attrs
    exact List.sorted_insertionSort strLe _

/-- Claim C7, witness: the determinism part applied to the HTML table over a
two-attribute `img` event, and the sortedness part evaluated on the same
event, whose iteration order is `[src, srcset, style]`. -/
theorem c7_deterministic_witness :
    (runLinkFinder (mkLinkFinder LinkTags [])
        [⟨"img", [("style", some "color:red"), ("srcset", some "a.jpg 1x"), ("src", some "b")],
          "", 1, 1⟩]
      = runLinkFinder (mkLinkFinder LinkTags [])
        [⟨"img", [("style", some "color:red"), ("srcset", some "a.jpg 1x"), ("src", some "b")],
          "", 1, 1⟩]) ∧
    (List.Sorted strLe (attr_iter htmlLinkFinder "img"
        [("style", some "color:red"), ("srcset", some "a.jpg 1x"), ("src", some "b")])) ∧
    (attr_iter htmlLinkFinder "img"
        [("style", some "color:red"), ("srcset", some "a.jpg 1x"), ("src", some "b")]
      = ["src", "srcset", "style"]) :=
  ⟨c7_deterministic.1 LinkTags LinkTags [] [] _ _ rfl rfl rfl,
   c7_deterministic.2 htmlLinkFinder "img" _, rfl⟩

/-- Claim C8.  `<form method="post" action="/x">` produces no sink call;
`<form action="/x">` and `<form method="get" action="/x">` each produce
exactly one sink call with url `/x`; and in general a form's `action` value
is emitted exactly when the `method` attribute is absent or does not
lowercase to `post`. -/
theorem c8_form_get :
    (runLinkFinder htmlLinkFinder
        [⟨"form", [("method", some "post"), ("action", some "/x")], "", 1, 1⟩]
      = (htmlLinkFinder, [], none)) ∧
    (runLinkFinder htmlLinkFinder [⟨"form", [("action", some "/x")], "", 1, 1⟩]
      = (htmlLinkFinder, [⟨some "/x", "", "", 1, 1⟩], none)) ∧
    (runLinkFinder htmlLinkFinder
        [⟨"form", [("method", some "get"), ("action", some "/x")], "", 1, 1⟩]
      = (htmlLinkFinder, [⟨some "/x", "", "", 1, 1⟩], none)) ∧
    (∀ (m v et : String) (l c : Nat),
      runLinkFinder htmlLinkFinder
          [⟨"form", [("method", some m), ("action", some v)], et, l, c⟩]
        = (htmlLinkFinder,
           (if lowerStr m = "post" then [] else [⟨some v, "", "", l, c⟩]), none)) ∧
    (∀ (v et : String) (l c : Nat),
      runLinkFinder htmlLinkFinder [⟨"form", [("action", some v)], et, l, c⟩]
        = (htmlLinkFinder, [⟨some v, "", "", l, c⟩], none)) := by
  refine ⟨rfl, rfl, rfl, fun m v et l c => form_run_general m v l c et, ?_⟩
  intros
  rfl
